import Mathlib

/-!
# Verification of the VulkanEngine frame/resource core (`src/vk_engine.h`)

Shallow embedding of the frame-lifecycle and GPU-resource-management core of
the VulkanEngine renderer.  Pure inline code from `vk_engine.h`
(`DeletionQueue`, `get_current_frame`, `FRAME_OVERLAP`) is translated
directly; behaviour whose implementation is declared in the header but whose
body is not part of the sources (the frame orchestrator `draw`,
`immediate_submit`, `create_image`, `MeshNode::Draw`) is modelled from the
specification, with each such definition marked `Modelled from the spec:`.

The file is organised as definitions first, then theorems.
-/

namespace VkEngine

/-! ## Definitions

### DeletionQueue (`vk_engine.h`, lines 15-28)

`deletors` is a `std::deque<std::function<void()>>`; actions are modelled as
opaque tokens of a type `A`, and "invoking" an action is modelled by emitting
it into an execution log.  `push_function` does `deletors.push_back(function)`;
`flush` iterates `rbegin()..rend()` invoking each element (i.e. executes the
stored actions in reverse storage order) and then calls `deletors.clear()`. -/

structure DeletionQueue (A : Type) where
  deletors : List A
deriving DecidableEq

/-- `push_function` appends the action at the back of the deque. -/
def DeletionQueue.push_function {A : Type} (q : DeletionQueue A) (a : A) :
    DeletionQueue A :=
  { deletors := q.deletors ++ [a] }

/-- `flush` invokes the stored actions from `rbegin()` to `rend()` (reverse
storage order) and then clears the deque.  The first component is the
execution log (the invoked actions in invocation order), the second the
state of the queue after `flush` returns. -/
def DeletionQueue.flush {A : Type} (q : DeletionQueue A) :
    List A × DeletionQueue A :=
  (q.deletors.reverse, { deletors := [] })

/-- The empty queue (freshly constructed `DeletionQueue`). -/
def DeletionQueue.empty (A : Type) : DeletionQueue A := { deletors := [] }

/-- Pushing a list of actions in order, left to right. -/
def DeletionQueue.pushAll {A : Type} (q : DeletionQueue A) (as : List A) :
    DeletionQueue A :=
  as.foldl DeletionQueue.push_function q

/-! ### Frame indexing (`vk_engine.h`, lines 12, 118, 132-133)

`constexpr unsigned int FRAME_OVERLAP = 2;`
`int _frameNumber{ 0 };`
`FrameData& get_current_frame() { return _frames[_frameNumber % FRAME_OVERLAP]; }`

`_frameNumber` has type `int` and `FRAME_OVERLAP` has type `unsigned int`.
By the C++ usual arithmetic conversions, in `_frameNumber % FRAME_OVERLAP`
the `int` operand is converted to `unsigned int` (value taken modulo 2^32)
and the `%` is computed on unsigned values; the result is an `unsigned int`
used as the array subscript into `FrameData _frames[FRAME_OVERLAP]`. -/

/-- Modulus of `int` / `unsigned int` on the target platform (32 bits). -/
def uintMod : Nat := 2 ^ 32

/-- C++ conversion of an `int` value to `unsigned int`: reduction modulo
`2^32` to a non-negative representative. -/
def toUnsigned (n : Int) : Nat := (n % (uintMod : Int)).toNat

/-- `constexpr unsigned int FRAME_OVERLAP = 2;` -/
def FRAME_OVERLAP : Nat := 2

/-- The array index computed by `get_current_frame`:
`_frameNumber % FRAME_OVERLAP` after the usual arithmetic conversions. -/
def get_current_frame_index (frameNumber : Int) : Nat :=
  toUnsigned frameNumber % FRAME_OVERLAP

/-! ### Frame orchestrator tick (`VulkanEngine::draw`, declared at
`vk_engine.h` line 212; body not in the sources) -/

/-- The observable per-slot actions of one orchestrator tick. -/
inductive FrameEvent where
  | waitFence (slot : Nat)
  | resetFence (slot : Nat)
  | flushDeletionQueue (slot : Nat)
  | resetDescriptorPools (slot : Nat)
  | acquireImage (slot : Nat)
  | resetCommandScope (slot : Nat)
  | recordCommands (slot : Nat)
  | submitWork (slot : Nat)
  | presentImage (slot : Nat)
deriving DecidableEq

/-- Modelled from the spec: the body of `VulkanEngine::draw` is not in the
sources; spec §4.4 gives the Frame Orchestrator state machine for one tick on
slot `s`: (1) wait on the slot's render fence, reset the fence, flush the
slot's deferred cleanup queue, reset the slot's descriptor allocator pools;
(2) acquire the next presentable image; (3) reset and begin the slot's
command-recording scope and record commands; (4) submit with the slot's
fence and present. -/
def slotTrace (s : Nat) : List FrameEvent :=
  [.waitFence s, .resetFence s, .flushDeletionQueue s,
   .resetDescriptorPools s, .acquireImage s, .resetCommandScope s,
   .recordCommands s, .submitWork s, .presentImage s]

/-- Modelled from the spec: tick `n` operates on slot `n % FRAME_OVERLAP`
(spec §3 FrameSlot lifecycle, matching `get_current_frame`). -/
def tickTrace (n : Nat) : List FrameEvent :=
  slotTrace (n % FRAME_OVERLAP)

/-- The concatenated event trace of the first `numTicks` ticks of the
single-threaded frame loop. -/
def orchestratorTrace : Nat → List FrameEvent
  | 0 => []
  | n + 1 => orchestratorTrace n ++ tickTrace n

/-- The events that reuse a slot's per-frame resources: flushing its deferred
cleanup queue, resetting its descriptor allocator pools, and resetting its
command-recording scope. -/
def FrameEvent.reusesSlot : FrameEvent → Option Nat
  | .flushDeletionQueue s => some s
  | .resetDescriptorPools s => some s
  | .resetCommandScope s => some s
  | _ => none

/-- Fence bookkeeping.  `sat s = true` means all GPU work previously
submitted for slot `s` is known complete (the slot's fence is satisfied).
`waitFence s` blocks until the fence signals, so afterwards it is satisfied;
`submitWork s` registers new GPU work signalled by the slot's fence, so
afterwards it is unsatisfied.  `resetFence` only unsignals the CPU-side
fence object and creates no pending work. -/
def stepFence (sat : Nat → Bool) : FrameEvent → (Nat → Bool)
  | .waitFence s => Function.update sat s true
  | .submitWork s => Function.update sat s false
  | _ => sat

/-- Run the fence checker over a trace: the result is `none` exactly when
some event reused a slot's per-frame resources while that slot's fence was
unsatisfied; otherwise `some` of the final fence state. -/
def runFenceCheck : List FrameEvent → (Nat → Bool) → Option (Nat → Bool)
  | [], sat => some sat
  | e :: rest, sat =>
      match e.reusesSlot with
      | some s => if sat s then runFenceCheck rest (stepFence sat e) else none
      | none => runFenceCheck rest (stepFence sat e)

/-! ### Scoped command submission (`VulkanEngine::immediate_submit`,
declared at `vk_engine.h` line 227; body not in the sources) -/

/-- Observable events of one scoped ("immediate") submission.  `F` is the
type of recording functions passed to `immediate_submit`. -/
inductive ImmEvent (F : Type) where
  | beginImmScope
  | execute (f : F)
  | endImmScope
  | submitToQueue
  | waitImmFence
  | resetImmFence
deriving DecidableEq

/-- Modelled from the spec: the body of `VulkanEngine::immediate_submit` is
not in the sources; spec §4.3: given a recording function, execute it once
on the dedicated immediate command scope (`_immCommandBuffer`), submit it to
the device queue, block the calling thread until the dedicated `_immFence`
signals completion, then reset that fence for reuse before returning.  The
returned list is the event trace of the call, in order. -/
def immediate_submit {F : Type} (f : F) : List (ImmEvent F) :=
  [.beginImmScope, .execute f, .endImmScope, .submitToQueue, .waitImmFence,
   .resetImmFence]

def ImmEvent.isExecute {F : Type} : ImmEvent F → Bool
  | .execute _ => true
  | _ => false

def ImmEvent.isSubmit {F : Type} : ImmEvent F → Bool
  | .submitToQueue => true
  | _ => false

def ImmEvent.isWait {F : Type} : ImmEvent F → Bool
  | .waitImmFence => true
  | _ => false

def ImmEvent.isReset {F : Type} : ImmEvent F → Bool
  | .resetImmFence => true
  | _ => false

/-! ### Orchestrator tick outcome on surface acquisition
(`VulkanEngine::draw`, `_frameNumber`, `resize_requested`;
`vk_engine.h` lines 118-120, 212; body of `draw` not in the sources) -/

/-- Result of requesting the next presentable surface image (spec §6).
Fatal device errors terminate the process (spec §7a) and are outside the
modelled tick. -/
inductive AcquireResult where
  | image (idx : Nat)
  | stale
deriving DecidableEq

/-- The engine state touched by a tick's acquisition handling:
`int _frameNumber` and `bool resize_requested`. -/
structure TickState where
  frameNumber : Int
  resize_requested : Bool
deriving DecidableEq

/-- Drawing work performed during a tick. -/
inductive DrawPhase where
  | record
  | submit
  | present
deriving DecidableEq

/-- Modelled from the spec: the body of `VulkanEngine::draw` is not in the
sources; spec §4.4 step 2 and §7(b): when acquisition reports a
stale/out-of-date surface, the error is absorbed into the
`resize_requested` flag and drawing for that tick is aborted; otherwise the
tick records, submits and presents.  Spec §4.4: the frame counter
increments unconditionally each tick. -/
def drawTick (acq : AcquireResult) (st : TickState) :
    TickState × List DrawPhase :=
  match acq with
  | .stale =>
      ({ st with resize_requested := true,
                 frameNumber := st.frameNumber + 1 }, [])
  | .image _ =>
      ({ st with frameNumber := st.frameNumber + 1 },
       [.record, .submit, .present])

/-! ### Draw context builder (`MeshNode::Draw`, declared at `vk_engine.h`
lines 108-111; `DrawContext` at lines 64-67; the body of `MeshNode::Draw`
and the `Node` base class from `vk_loader.h` are not in the sources)

The matrix type `glm::mat4` is abstracted as a type `M` with multiplication
and an identity; per-surface draw data (index count, first index, buffers)
is abstracted as a surface identifier. -/

/-- Classification of a surface's blending behaviour: the opaque pass
(`MaterialPass::MainColor`) or the transparent pass
(`MaterialPass::Transparent`). -/
inductive MaterialPass where
  | mainColor
  | transparent
deriving DecidableEq

def MaterialPass.isTransparent : MaterialPass → Bool
  | .transparent => true
  | .mainColor => false

/-- One mesh surface: its draw data (abstracted to an identifier) and the
pass of its material. -/
structure MeshSurface where
  surfaceId : Nat
  pass : MaterialPass
deriving DecidableEq

/-- A draw-call descriptor (`vk_engine.h` lines 55-62), reduced to the
fields the builder determines: the surface's draw data, its material's
pass, and the accumulated world transform. -/
structure RenderObject (M : Type) where
  surfaceId : Nat
  pass : MaterialPass
  transform : M
deriving DecidableEq

/-- `DrawContext` (`vk_engine.h` lines 64-67): the ordered opaque and
transparent buckets. -/
structure DrawContext (M : Type) where
  OpaqueSurfaces : List (RenderObject M)
  TransparentSurfaces : List (RenderObject M)
deriving DecidableEq

/-- An empty draw context (both buckets cleared, as at frame start). -/
def DrawContext.empty (M : Type) : DrawContext M := ⟨[], []⟩

/-- Emit one `RenderObject` for surface `s` with world transform `w` into
the bucket selected by the surface's material pass (push_back). -/
def DrawContext.emit {M : Type} (ctx : DrawContext M) (s : MeshSurface)
    (w : M) : DrawContext M :=
  match s.pass with
  | .transparent =>
      { ctx with TransparentSurfaces :=
          ctx.TransparentSurfaces ++ [⟨s.surfaceId, s.pass, w⟩] }
  | .mainColor =>
      { ctx with OpaqueSurfaces :=
          ctx.OpaqueSurfaces ++ [⟨s.surfaceId, s.pass, w⟩] }

/-- Emit all surfaces of one mesh, in order. -/
def emitSurfaces {M : Type} (w : M) (surfs : List MeshSurface)
    (ctx : DrawContext M) : DrawContext M :=
  surfs.foldl (fun c s => c.emit s w) ctx

/-- A scene-graph node: either a container with children, or a leaf
carrying mesh data (a list of surfaces).  Each node has a local transform;
a node's accumulated world matrix is the product of its ancestors' local
transforms and its own. -/
inductive SceneNode (M : Type) : Type where
  | group (localTransform : M) (children : List (SceneNode M)) : SceneNode M
  | meshLeaf (localTransform : M) (surfaces : List MeshSurface) : SceneNode M

mutual

/-- Modelled from the spec: the body of `MeshNode::Draw` and the `Node`
base class are not in the sources; spec §4.5: recursively visit nodes
accumulating the world transform; at each leaf carrying mesh data emit, for
every mesh surface, one `RenderObject` into the opaque or transparent
bucket according to the surface's material pass, with `transform` equal to
the node's accumulated world matrix. -/
def drawNode {M : Type} [Mul M] (top : M) :
    SceneNode M → DrawContext M → DrawContext M
  | .meshLeaf l surfs, ctx => emitSurfaces (top * l) surfs ctx
  | .group l children, ctx => drawChildren (top * l) children ctx

/-- Visit a list of sibling nodes in order, threading the context. -/
def drawChildren {M : Type} [Mul M] (w : M) :
    List (SceneNode M) → DrawContext M → DrawContext M
  | [], ctx => ctx
  | c :: cs, ctx => drawChildren w cs (drawNode w c ctx)

end

mutual

/-- The surfaces of a scene graph paired with their accumulated world
matrices (the product of the ancestor transforms down to each leaf), in
traversal order. -/
def nodeWorlds {M : Type} [Mul M] (top : M) :
    SceneNode M → List (MeshSurface × M)
  | .meshLeaf l surfs => surfs.map (fun s => (s, top * l))
  | .group l children => childrenWorlds (top * l) children

def childrenWorlds {M : Type} [Mul M] (w : M) :
    List (SceneNode M) → List (MeshSurface × M)
  | [] => []
  | c :: cs => nodeWorlds w c ++ childrenWorlds w cs

end

mutual

/-- Number of mesh leaves of a scene graph. -/
def meshLeafCount {M : Type} : SceneNode M → Nat
  | .meshLeaf _ _ => 1
  | .group _ children => meshLeafCountList children

def meshLeafCountList {M : Type} : List (SceneNode M) → Nat
  | [] => 0
  | c :: cs => meshLeafCount c + meshLeafCountList cs

end

mutual

/-- All surfaces of a scene graph, in traversal order. -/
def surfaceList {M : Type} : SceneNode M → List MeshSurface
  | .meshLeaf _ surfs => surfs
  | .group _ children => surfaceListChildren children

def surfaceListChildren {M : Type} : List (SceneNode M) → List MeshSurface
  | [] => []
  | c :: cs => surfaceList c ++ surfaceListChildren cs

end

/-- Turn a surface/world pair into the `RenderObject` the builder emits. -/
def toRenderObject {M : Type} (p : MeshSurface × M) : RenderObject M :=
  ⟨p.1.surfaceId, p.1.pass, p.2⟩

/-- The opaque-pass render objects of a surface/world list. -/
def bucketMainColor {M : Type} (l : List (MeshSurface × M)) :
    List (RenderObject M) :=
  (l.filter fun p => !(p.1.pass.isTransparent)).map toRenderObject

/-- The transparent-pass render objects of a surface/world list. -/
def bucketTransparent {M : Type} (l : List (MeshSurface × M)) :
    List (RenderObject M) :=
  (l.filter fun p => p.1.pass.isTransparent).map toRenderObject

/-! ### GPU resource allocator (`VulkanEngine::create_image` overloads,
declared at `vk_engine.h` lines 221-222; bodies not in the sources) -/

/-- A GPU image allocation: extent, format and mip-level count. -/
structure ImageAllocation where
  width : Nat
  height : Nat
  depth : Nat
  format : Nat
  usage : Nat
  mipLevels : Nat
deriving DecidableEq

/-- Modelled from the spec: the body of
`create_image(VkExtent3D, VkFormat, VkImageUsageFlags, bool)` is not in the
sources; spec §4.2: `mipmapped` selects full mip-chain allocation sized by
`floor(log2(max(extent.width, extent.height))) + 1`, otherwise a single
level.  `Nat.log2 n` is `floor(log2 n)` for `n ≥ 1`. -/
def create_image (width height depth format usage : Nat)
    (mipmapped : Bool) : ImageAllocation :=
  { width := width, height := height, depth := depth, format := format,
    usage := usage,
    mipLevels :=
      if mipmapped then Nat.log2 (max width height) + 1 else 1 }

/-- Device storage reachable through the allocator: buffers and images by
handle, each holding raw bytes (a byte is a `Nat`); images also carry their
format.  `nextHandle` is the allocation counter. -/
structure GpuStore where
  buffers : List (Nat × List Nat)
  images : List (Nat × (Nat × List Nat))
  nextHandle : Nat
deriving DecidableEq

def GpuStore.readBuffer (st : GpuStore) (h : Nat) : Option (List Nat) :=
  st.buffers.lookup h

def GpuStore.readImage (st : GpuStore) (h : Nat) :
    Option (Nat × List Nat) :=
  st.images.lookup h

/-- Observable events of the data-upload overload of `create_image`. -/
inductive UploadEvent where
  | createStagingBuffer (handle : Nat)
  | copyStagingToImage (src dst : Nat)
  | scopedSubmitComplete
  | destroyStagingBuffer (handle : Nat)
deriving DecidableEq

def UploadEvent.isCopy : UploadEvent → Bool
  | .copyStagingToImage _ _ => true
  | _ => false

def UploadEvent.isScopedComplete : UploadEvent → Bool
  | .scopedSubmitComplete => true
  | _ => false

def UploadEvent.isDestroyStaging : UploadEvent → Bool
  | .destroyStagingBuffer _ => true
  | _ => false

/-- Modelled from the spec: the body of
`create_image(void*, VkExtent3D, VkFormat, VkImageUsageFlags, bool)` is not
in the sources; spec §4.2: allocate the image, stage `data` through a
temporary CPU-visible buffer, and run a Scoped Command Submission that
copies the staged bytes unchanged into the image (a read reinterprets them
per `format`) and transitions it to a shader-readable layout; the temporary
staging buffer is destroyed after the scoped submission completes.
Returns the new image handle, the final store, and the event trace. -/
def create_image_upload (data : List Nat) (format : Nat) (st : GpuStore) :
    Nat × GpuStore × List UploadEvent :=
  let staging := st.nextHandle
  let img := st.nextHandle + 1
  let st1 : GpuStore :=
    { st with buffers := (staging, data) :: st.buffers,
              nextHandle := st.nextHandle + 2 }
  let staged := (st1.readBuffer staging).getD []
  let st2 : GpuStore := { st1 with images := (img, format, staged) :: st1.images }
  let st3 : GpuStore :=
    { st2 with buffers := st2.buffers.filter fun b => b.1 != staging }
  (img, st3,
   [.createStagingBuffer staging, .copyStagingToImage staging img,
    .scopedSubmitComplete, .destroyStagingBuffer staging])

/-! ## Theorems -/

theorem DeletionQueue.pushAll_deletors {A : Type} (q : DeletionQueue A)
    (as : List A) : (q.pushAll as).deletors = q.deletors ++ as := by
  induction as generalizing q with
  | nil => simp [pushAll]
  | cons a as ih =>
      simp [pushAll, List.foldl_cons] at *
      simpa [push_function] using ih (q.push_function a)

theorem toUnsigned_natCast (n : Nat) : toUnsigned (n : Int) = n % uintMod := by
  have h : ((n : Int) % (uintMod : Int)) = ((n % uintMod : Nat) : Int) := by
    push_cast
    ring
  rw [toUnsigned, h, Int.toNat_natCast]

/-- For non-negative frame counters the computed slot index is the
mathematical `frameNumber mod 2`. -/
theorem get_current_frame_index_natCast (n : Nat) :
    get_current_frame_index (n : Int) = n % 2 := by
  have h2 : (2 : Nat) ∣ uintMod := ⟨2 ^ 31, by norm_num [uintMod]⟩
  simp [get_current_frame_index, toUnsigned_natCast, FRAME_OVERLAP,
    Nat.mod_mod_of_dvd _ h2]

theorem runFenceCheck_append (a b : List FrameEvent) (sat : Nat → Bool) :
    runFenceCheck (a ++ b) sat =
      (runFenceCheck a sat).bind (fun st => runFenceCheck b st) := by
  induction a generalizing sat with
  | nil => simp [runFenceCheck]
  | cons e rest ih =>
      cases h : e.reusesSlot with
      | none => simp [runFenceCheck, h, ih]
      | some s =>
          by_cases hs : sat s
          · simp [runFenceCheck, h, hs, ih]
          · simp [runFenceCheck, h, hs]

/-- One tick on slot `s` passes the fence checker from any entry state: the
wait on the slot's fence comes before every reuse of the slot's resources,
and the tick leaves the slot's fence unsatisfied (work was submitted). -/
theorem runFenceCheck_slotTrace (s : Nat) (sat : Nat → Bool) :
    runFenceCheck (slotTrace s) sat = some (Function.update sat s false) := by
  simp [slotTrace, runFenceCheck, FrameEvent.reusesSlot, stepFence,
    Function.update_same, Function.update_idem]

/-- C1: for every number of ticks and every initial fence state (the
all-unsatisfied state included), the fence checker accepts the orchestrator
trace: no event that reuses a FrameSlot's per-frame resources — flushing its
deferred cleanup queue, resetting its descriptor allocator pools, or
resetting its command-recording scope — executes while that slot's fence is
unsatisfied.  Since only `waitFence s` satisfies slot `s`'s fence, every such
reuse is preceded by a wait on the slot's render fence. -/
theorem claim_C1_fence_waited_before_slot_reuse (numTicks : Nat)
    (sat : Nat → Bool) :
    (runFenceCheck (orchestratorTrace numTicks) sat).isSome = true := by
  induction numTicks generalizing sat with
  | zero => simp [orchestratorTrace, runFenceCheck]
  | succ n ih =>
      rw [orchestratorTrace, runFenceCheck_append]
      have h := ih sat
      cases hrun : runFenceCheck (orchestratorTrace n) sat with
      | none => rw [hrun] at h; simp at h
      | some st => simp [hrun, tickTrace, runFenceCheck_slotTrace]

/-- C5: for every recording function, `immediate_submit` executes the
function exactly once on the dedicated immediate command scope, and the
execution happens before the submission to the device queue; the submission
precedes the blocking wait on the dedicated immediate fence; the fence is
reset after the wait; and the reset is the last event before
`immediate_submit` returns. -/
theorem claim_C5_immediate_submit_contract {F : Type} (f : F) :
    (immediate_submit f).countP ImmEvent.isExecute = 1 ∧
    ((immediate_submit f).take
        ((immediate_submit f).findIdx ImmEvent.isSubmit)).countP
      ImmEvent.isExecute = 1 ∧
    (immediate_submit f).countP ImmEvent.isSubmit = 1 ∧
    (immediate_submit f).findIdx ImmEvent.isSubmit <
      (immediate_submit f).findIdx ImmEvent.isWait ∧
    (immediate_submit f).findIdx ImmEvent.isWait <
      (immediate_submit f).findIdx ImmEvent.isReset ∧
    (immediate_submit f).getLast? = some .resetImmFence := by
  refine ⟨?_, ?_, ?_, ?_, ?_, ?_⟩ <;>
    simp [immediate_submit, ImmEvent.isExecute, ImmEvent.isSubmit,
      ImmEvent.isWait, ImmEvent.isReset, List.countP, List.countP.go,
      List.findIdx, List.findIdx.go]

/-- C6: when surface acquisition reports a stale/out-of-date surface during
a tick, the error is absorbed into the `resize_requested` flag and drawing
for that tick is aborted (no record/submit/present phase runs), while the
frame counter increments; and the frame counter increments unconditionally
on every tick, whatever the acquisition result, so slot rotation advances. -/
theorem claim_C6_stale_surface_recoverable (st : TickState)
    (acq : AcquireResult) :
    (drawTick acq st).1.frameNumber = st.frameNumber + 1 ∧
    (drawTick .stale st).1.resize_requested = true ∧
    (drawTick .stale st).2 = [] := by
  cases acq <;> simp [drawTick]

theorem emitSurfaces_eq {M : Type} (w : M) (surfs : List MeshSurface)
    (ctx : DrawContext M) :
    emitSurfaces w surfs ctx =
      ⟨ctx.OpaqueSurfaces ++ bucketMainColor (surfs.map fun s => (s, w)),
       ctx.TransparentSurfaces ++
         bucketTransparent (surfs.map fun s => (s, w))⟩ := by
  induction surfs generalizing ctx with
  | nil => simp [emitSurfaces, bucketMainColor, bucketTransparent]
  | cons s rest ih =>
      rw [show emitSurfaces w (s :: rest) ctx
            = emitSurfaces w rest (ctx.emit s w) from rfl, ih]
      obtain ⟨sid, sp⟩ := s
      cases sp <;>
        simp [DrawContext.emit, bucketMainColor, bucketTransparent,
          MaterialPass.isTransparent, toRenderObject, List.filter_cons,
          List.append_assoc]

mutual

theorem drawNode_eq {M : Type} [Mul M] (top : M) (t : SceneNode M)
    (ctx : DrawContext M) :
    drawNode top t ctx =
      ⟨ctx.OpaqueSurfaces ++ bucketMainColor (nodeWorlds top t),
       ctx.TransparentSurfaces ++ bucketTransparent (nodeWorlds top t)⟩ := by
  cases t with
  | meshLeaf l surfs =>
      rw [drawNode, nodeWorlds]
      exact emitSurfaces_eq (top * l) surfs ctx
  | group l children =>
      rw [drawNode, nodeWorlds]
      exact drawChildren_eq (top * l) children ctx

theorem drawChildren_eq {M : Type} [Mul M] (w : M)
    (cs : List (SceneNode M)) (ctx : DrawContext M) :
    drawChildren w cs ctx =
      ⟨ctx.OpaqueSurfaces ++ bucketMainColor (childrenWorlds w cs),
       ctx.TransparentSurfaces ++ bucketTransparent (childrenWorlds w cs)⟩ := by
  cases cs with
  | nil =>
      simp [drawChildren, childrenWorlds, bucketMainColor, bucketTransparent]
  | cons c cs =>
      rw [drawChildren, childrenWorlds, drawNode_eq w c ctx,
        drawChildren_eq w cs]
      simp [bucketMainColor, bucketTransparent, List.filter_append,
        List.map_append, List.append_assoc]

end

mutual

theorem nodeWorlds_map_fst {M : Type} [Mul M] (top : M) (t : SceneNode M) :
    (nodeWorlds top t).map Prod.fst = surfaceList t := by
  cases t with
  | meshLeaf l surfs =>
      rw [nodeWorlds, surfaceList, List.map_map,
        show (Prod.fst ∘ fun s : MeshSurface => (s, top * l)) = id from rfl,
        List.map_id]
  | group l children =>
      rw [nodeWorlds, surfaceList]
      exact childrenWorlds_map_fst (top * l) children

theorem childrenWorlds_map_fst {M : Type} [Mul M] (w : M)
    (cs : List (SceneNode M)) :
    (childrenWorlds w cs).map Prod.fst = surfaceListChildren cs := by
  cases cs with
  | nil => rfl
  | cons c cs =>
      rw [childrenWorlds, surfaceListChildren, List.map_append,
        nodeWorlds_map_fst w c, childrenWorlds_map_fst w cs]

end

theorem bucketMainColor_length {M : Type} (l : List (MeshSurface × M)) :
    (bucketMainColor l).length =
      ((l.map Prod.fst).filter fun s => !(s.pass.isTransparent)).length := by
  induction l with
  | nil => rfl
  | cons a l ih =>
      cases h : a.1.pass.isTransparent <;>
        simp [bucketMainColor, List.filter_cons, h] <;>
        simpa [bucketMainColor] using ih

theorem bucketTransparent_length {M : Type} (l : List (MeshSurface × M)) :
    (bucketTransparent l).length =
      ((l.map Prod.fst).filter fun s => s.pass.isTransparent).length := by
  induction l with
  | nil => rfl
  | cons a l ih =>
      cases h : a.1.pass.isTransparent <;>
        simp [bucketTransparent, List.filter_cons, h] <;>
        simpa [bucketTransparent] using ih

/-- C7: for every scene graph with 3 mesh leaves, 2 opaque-pass surfaces
and 1 transparent-pass surface, building the draw context from an identity
root transform into a cleared context yields an opaque list of length 2 and
a transparent list of length 1, and the emitted `RenderObject`s are exactly
the graph's surfaces in traversal order, each carrying as `transform` the
node's accumulated world matrix (the product of the ancestor transforms
down to its leaf, as computed by `nodeWorlds`). -/
theorem claim_C7_draw_context_builder {M : Type} [Mul M] [One M]
    (root : SceneNode M)
    (_hleaves : meshLeafCount root = 3)
    (hop : ((surfaceList root).filter fun s =>
      !(s.pass.isTransparent)).length = 2)
    (htr : ((surfaceList root).filter fun s =>
      s.pass.isTransparent).length = 1) :
    (drawNode 1 root (DrawContext.empty M)).OpaqueSurfaces.length = 2 ∧
    (drawNode 1 root (DrawContext.empty M)).TransparentSurfaces.length = 1 ∧
    (drawNode 1 root (DrawContext.empty M)).OpaqueSurfaces =
      bucketMainColor (nodeWorlds 1 root) ∧
    (drawNode 1 root (DrawContext.empty M)).TransparentSurfaces =
      bucketTransparent (nodeWorlds 1 root) := by
  rw [drawNode_eq 1 root (DrawContext.empty M)]
  refine ⟨?_, ?_, by simp [DrawContext.empty], by simp [DrawContext.empty]⟩
  · rw [show (DrawContext.empty M).OpaqueSurfaces = [] from rfl,
      List.nil_append, bucketMainColor_length, nodeWorlds_map_fst, hop]
  · rw [show (DrawContext.empty M).TransparentSurfaces = [] from rfl,
      List.nil_append, bucketTransparent_length, nodeWorlds_map_fst, htr]

/-- A concrete scene graph over `M = ℕ`: a root container with local
transform 1 and three mesh leaves — two with one opaque-pass surface each
(local transforms 2 and 3) and one with one transparent-pass surface
(local transform 5). -/
def c7Root : SceneNode Nat :=
  .group 1
    [.meshLeaf 2 [⟨0, .mainColor⟩],
     .meshLeaf 3 [⟨1, .mainColor⟩],
     .meshLeaf 5 [⟨2, .transparent⟩]]

theorem claim_C7_draw_context_builder_witness :
    (drawNode 1 c7Root (DrawContext.empty Nat)).OpaqueSurfaces.length = 2 ∧
    (drawNode 1 c7Root (DrawContext.empty Nat)).TransparentSurfaces.length
      = 1 ∧
    (drawNode 1 c7Root (DrawContext.empty Nat)).OpaqueSurfaces =
      bucketMainColor (nodeWorlds 1 c7Root) ∧
    (drawNode 1 c7Root (DrawContext.empty Nat)).TransparentSurfaces =
      bucketTransparent (nodeWorlds 1 c7Root) :=
  claim_C7_draw_context_builder c7Root
    (by simp [c7Root, meshLeafCount, meshLeafCountList])
    (by simp [c7Root, surfaceList, surfaceListChildren,
      MaterialPass.isTransparent, List.filter_cons])
    (by simp [c7Root, surfaceList, surfaceListChildren,
      MaterialPass.isTransparent, List.filter_cons])

/-- C2: for every `DeletionQueue` on which actions `a1, ..., ak` were pushed
in that order with no intervening flush, `flush()` invokes exactly those `k`
actions, each exactly once, in strict reverse order `ak, ..., a1`: the
execution log is the reverse of the pushed list, and every action is invoked
as many times as it was pushed. -/
theorem claim_C2_flush_reverse_order {A : Type} [DecidableEq A]
    (as : List A) :
    ((DeletionQueue.empty A).pushAll as).flush.1 = as.reverse ∧
      ∀ a : A, (((DeletionQueue.empty A).pushAll as).flush.1.count a =
        as.count a) := by
  refine ⟨?_, fun a => ?_⟩
  · simp [DeletionQueue.flush, DeletionQueue.pushAll_deletors,
      DeletionQueue.empty]
  · simp [DeletionQueue.flush, DeletionQueue.pushAll_deletors,
      DeletionQueue.empty, List.count_reverse]

/-- C3: after `flush()` returns the queue holds no pending actions, so a
second `flush()` with no intervening push invokes zero actions. -/
theorem claim_C3_flush_leaves_queue_empty {A : Type} (q : DeletionQueue A) :
    q.flush.2.deletors = [] ∧ q.flush.2.flush.1 = [] := by
  simp [DeletionQueue.flush]

/-- C4: with `FRAME_OVERLAP = 2` frame slots, the slot used on each tick
equals `frameNumber mod 2`; for ticks 0 through 4 the slot assignment
sequence is `[0, 1, 0, 1, 0]`; and every tick's index is in bounds for the
fixed 2-element `_frames` array created at startup, so the same two slots
are reused for the life of the process. -/
theorem claim_C4_slot_rotation :
    (∀ n : Nat, get_current_frame_index (n : Int) = n % 2 ∧
      get_current_frame_index (n : Int) < FRAME_OVERLAP) ∧
    (List.range 5).map (fun n => get_current_frame_index (n : Int)) =
      [0, 1, 0, 1, 0] := by
  refine ⟨fun n => ⟨get_current_frame_index_natCast n, ?_⟩, ?_⟩
  · rw [get_current_frame_index_natCast]
    exact lt_of_lt_of_le (Nat.mod_lt _ (by norm_num)) (by norm_num [FRAME_OVERLAP])
  · decide

/-- C10 counterexample: the claim asserts that a negative `_frameNumber`
would produce a negative, out-of-bounds index.  In fact `FRAME_OVERLAP` has
type `unsigned int`, so in `_frameNumber % FRAME_OVERLAP` the `int` operand
is converted to `unsigned int`; at `_frameNumber = -1` the computed
subscript is `4294967295 % 2 = 1`, which is non-negative and in bounds for
the 2-element `_frames` array. -/
theorem claim_C10_counterexample :
    get_current_frame_index (-1) = 1 ∧
      get_current_frame_index (-1) < FRAME_OVERLAP := by
  constructor <;> decide

/-- C10 (amended): for every `int` value of `_frameNumber`, the index
computed by `get_current_frame()` lies in `{0, 1}` and is in bounds for the
2-element `_frames` array — the non-negativity precondition is not needed,
because the `int` operand is converted to `unsigned int` before `%`.  For
non-negative counters the index moreover equals `_frameNumber % 2`. -/
theorem claim_C10_index_in_bounds (m : Int)
    (_h1 : -(2 ^ 31) ≤ m) (_h2 : m < 2 ^ 31) :
    get_current_frame_index m < FRAME_OVERLAP ∧
      (0 ≤ m → get_current_frame_index m = m.toNat % 2) := by
  refine ⟨?_, fun hm => ?_⟩
  · rw [get_current_frame_index]
    exact Nat.mod_lt _ (by norm_num [FRAME_OVERLAP])
  · have h : m = ((m.toNat : Nat) : Int) := (Int.toNat_of_nonneg hm).symm
    rw [h, get_current_frame_index_natCast, Int.toNat_natCast]

theorem lookup_filter_ne {β : Type} (k : Nat) (l : List (Nat × β)) :
    (l.filter fun b => b.1 != k).lookup k = none := by
  induction l with
  | nil => rfl
  | cons a l ih =>
      by_cases h : a.1 = k
      · simp [List.filter_cons, h, ih]
      · have hk : (k == a.1) = false := by
          simp only [beq_eq_false_iff_ne]
          exact fun e => h e.symm
        simp [List.filter_cons, h, List.lookup, hk, ih]

/-- C8: for every data byte list, format and store state, the data-upload
`create_image` stages `data` through a temporary CPU-visible buffer and a
scoped command submission such that a subsequent read of the created image
yields exactly the staged bytes tagged with `format` (bytes equal to `data`,
reinterpreted per `format`); the temporary staging buffer no longer exists
in the final store; and in the event trace the staging-to-image copy
precedes the scoped submission's completion, which precedes the destruction
of the staging buffer. -/
theorem claim_C8_staged_upload_roundtrip (data : List Nat) (format : Nat)
    (st : GpuStore) :
    (create_image_upload data format st).2.1.readImage
        (create_image_upload data format st).1 = some (format, data) ∧
    (create_image_upload data format st).2.1.readBuffer st.nextHandle
      = none ∧
    (create_image_upload data format st).2.2.findIdx UploadEvent.isCopy <
      (create_image_upload data format st).2.2.findIdx
        UploadEvent.isScopedComplete ∧
    (create_image_upload data format st).2.2.findIdx
        UploadEvent.isScopedComplete <
      (create_image_upload data format st).2.2.findIdx
        UploadEvent.isDestroyStaging := by
  refine ⟨?_, ?_, ?_, ?_⟩
  · simp [create_image_upload, GpuStore.readImage, GpuStore.readBuffer,
      List.lookup]
  · simpa [create_image_upload, GpuStore.readBuffer] using
      lookup_filter_ne st.nextHandle ((st.nextHandle, data) :: st.buffers)
  · simp [create_image_upload, List.findIdx, List.findIdx.go,
      UploadEvent.isCopy, UploadEvent.isScopedComplete]
  · simp [create_image_upload, List.findIdx, List.findIdx.go,
      UploadEvent.isScopedComplete, UploadEvent.isDestroyStaging]

/-- C9: when `create_image` is called with `mipmapped = true` on an extent
with `max(width, height) ≥ 1`, the image is allocated with exactly
`floor(log2(max(width, height))) + 1` mip levels: writing `L` for the
allocated level count, `2^(L-1) ≤ max(width, height) < 2^L`. -/
theorem claim_C9_full_mip_chain (width height depth format usage : Nat)
    (h : 1 ≤ max width height) :
    (create_image width height depth format usage true).mipLevels =
      Nat.log2 (max width height) + 1 ∧
    2 ^ ((create_image width height depth format usage true).mipLevels - 1)
      ≤ max width height ∧
    max width height <
      2 ^ (create_image width height depth format usage true).mipLevels := by
  have hm : (create_image width height depth format usage true).mipLevels
      = Nat.log2 (max width height) + 1 := rfl
  refine ⟨hm, ?_, ?_⟩
  · rw [hm, Nat.add_sub_cancel]
    exact Nat.log2_self_le (Nat.one_le_iff_ne_zero.mp h)
  · rw [hm]
    exact Nat.lt_log2_self

theorem claim_C9_full_mip_chain_witness :
    (create_image 1700 900 1 0 0 true).mipLevels =
      Nat.log2 (max 1700 900) + 1 ∧
    2 ^ ((create_image 1700 900 1 0 0 true).mipLevels - 1)
      ≤ max 1700 900 ∧
    max 1700 900 < 2 ^ (create_image 1700 900 1 0 0 true).mipLevels :=
  claim_C9_full_mip_chain 1700 900 1 0 0 (by decide)

theorem claim_C10_index_in_bounds_witness :
    get_current_frame_index (-5) < FRAME_OVERLAP ∧
      (0 ≤ (-5 : Int) → get_current_frame_index (-5) = (-5 : Int).toNat % 2) :=
  claim_C10_index_in_bounds (-5) (by norm_num) (by norm_num)

end VkEngine
